import Mathlib

/-!
Verification of the roselite publish/serve pipeline.

This file gives a shallow embedding, in Lean 4, of the parts of the
roselite source that the specification talks about:

* `roselite-core/src/package.rs` — slug generation, manifest validation,
  `Package::from_bytes`;
* `roselite-core/src/veilid.rs` — `VeilidConnection::connect`,
  `attach_with_retry`, and the `dht_set` / `dht_get` / `dht_delete`
  operations with their fallback in-memory storage;
* `roselite-core/src/store.rs` — `VeilidStore::publish` and
  `VeilidStore::download`;
* `roselite-gateway/src/main.rs` — `extract_domain_from_hostname`,
  `handle_request_internal` and `serve_static_file`.

Rust data is embedded as plain Lean data: strings as `String`, byte
vectors as `List Nat`, `HashMap` as an association list with
insert-by-prepend and first-match lookup (observationally the map
semantics of `HashMap`), fallible functions as `Except`.  Library
boundaries (serde_json, the tar/gzip decoder, the Veilid overlay API,
the filesystem) are embedded at the value level: serialized values are
carried as typed values together with an explicit byte-level rendering
where a claim is about byte lengths, and external outcomes (network
attach attempts, archive entries, files on disk) are parameters of the
embedded functions.

The file is organized as definitions first (the embedding), then
theorems (lemmas about the embedding followed by the claim theorems).
-/

namespace Roselite

/-! ## Association-list maps

`HashMap::insert` / `get` / `remove` are embedded as an association list
where insertion prepends and lookup takes the first match; removal drops
every binding of the key.  This is observationally the map semantics of
the Rust `HashMap`s used by the source. -/

/-- One binding store: lookup returns the most recent insertion. -/
def alLookup {β : Type} (m : List (String × β)) (k : String) : Option β :=
  match m with
  | [] => none
  | (k', v) :: rest => if k' = k then some v else alLookup rest k

/-- Insert a binding (shadows any earlier binding of the key). -/
def alInsert {β : Type} (m : List (String × β)) (k : String) (v : β) :
    List (String × β) :=
  (k, v) :: m

/-- Remove every binding of a key. -/
def alRemove {β : Type} (m : List (String × β)) (k : String) :
    List (String × β) :=
  m.filter (fun p => ¬ (p.1 = k))

/-! ## Error taxonomy

Embedding of `RoseliteError` from `crates/roselite-core/src/error.rs`,
restricted to the variants the embedded operations can produce. -/

/-- Error variants of `RoseliteError` reachable from the embedded code. -/
inductive RoseliteErr where
  | invalidFormat
  | missingManifest
  | invalidManifest (reason : String)
  | connectionFailed
  | dhtOperationFailed (operation : String)
  | appNotFound (msg : String)
  | serializationError (msg : String)
  | validationError (msg : String)
  deriving DecidableEq, Repr

/-- Does an error carry the `ValidationError` tag? -/
def RoseliteErr.isValidationError : RoseliteErr → Bool
  | .validationError _ => true
  | _ => false

/-! ## Slug generation (`PackageManifest::generate_slug`, package.rs lines 46-61)

The Rust code lowercases the name, then `filter_map`s each character:
alphanumeric characters are kept, whitespace and the characters `-` and
`_` become `-`, anything else is dropped; finally `trim_matches('-')`
strips leading and trailing dashes.  `Char.toLower` / `Char.isAlphanum`
embed the ASCII fragment of the Rust Unicode predicates, and
`rustIsWhitespace` is `char::is_whitespace` on the ASCII range. -/

/-- ASCII fragment of Rust `char::is_whitespace` (U+0009 through U+000D and space). -/
def rustIsWhitespace (c : Char) : Bool :=
  c = ' ' || (9 ≤ c.toNat && c.toNat ≤ 13)

/-- The per-character step of the `filter_map` in `generate_slug`. -/
def slugFoldChar (c : Char) : Option Char :=
  if c.isAlphanum then some c
  else if rustIsWhitespace c || c = '-' || c = '_' then some '-'
  else none

/-- Drop trailing `'-'` characters (the right half of `trim_matches('-')`). -/
def dropTrailingDashes : List Char → List Char
  | [] => []
  | c :: cs =>
    match dropTrailingDashes cs with
    | [] => if c = '-' then [] else [c]
    | r => c :: r

/-- Rust `str::trim_matches('-')`: strip leading and trailing dashes. -/
def trimDashes (l : List Char) : List Char :=
  dropTrailingDashes (l.dropWhile (fun c => c = '-'))

/-- Embedding of `PackageManifest::generate_slug` (also duplicated verbatim
as `Package::generate_slug`, package.rs lines 92-107). -/
def generate_slug (name : String) : String :=
  ⟨trimDashes ((name.data.map Char.toLower).filterMap slugFoldChar)⟩

/-! ## Gateway hostname dispatch (`extract_domain_from_hostname`, gateway main.rs lines 542-551)

Rust strips the port (`split(':').next()`) from both the request `Host`
value and the configured gateway domain, returns `None` (root) when they
are equal, and otherwise returns the whole port-stripped hostname. -/

/-- Rust `s.split(':').next().unwrap_or(s)`: the part before the first colon. -/
def stripPort (s : String) : String :=
  ⟨s.data.takeWhile (fun c => ¬ (c = ':'))⟩

/-- Embedding of `extract_domain_from_hostname` (gateway main.rs lines 542-551). -/
def extract_domain_from_hostname (hostname domain : String) : Option String :=
  let hostname_no_port := stripPort hostname
  let domain_no_port := stripPort domain
  if hostname_no_port = domain_no_port then
    none
  else
    some hostname_no_port

/-! ## Package data model (package.rs) -/

/-- Embedding of the `Permission` enum. -/
inductive Permission where
  | network
  | fileSystem
  | camera
  | microphone
  | clipboard
  deriving DecidableEq, Repr

/-- Embedding of `PackageManifest` (package.rs lines 16-42).  The two
`DateTime<Utc>` fields are embedded as their RFC 3339 renderings. -/
structure PackageManifest where
  name : String
  version : String
  description : String
  developer : String
  author : String
  category : String
  entry : String
  tags : List String
  slug : String
  identity : String
  signature : String
  format_version : String
  dependencies : List String
  permissions : List Permission
  created_at : String
  updated_at : String
  public_key : String
  deriving DecidableEq, Repr

/-- Embedding of `Package` (package.rs lines 83-88); byte vectors as `List Nat`. -/
structure Package where
  manifest : PackageManifest
  content : List Nat
  size_bytes : Nat
  data : List Nat
  deriving DecidableEq, Repr

/-- Manifest filename constant (`crates/roselite-core/src/lib.rs` line 30). -/
def MANIFEST_FILENAME : String := "veilid.json"

/-- Embedding of `Package::validate_manifest` (package.rs lines 206-232):
only `name`, `version`, `entry` and `identity` are checked for emptiness. -/
def validate_manifest (manifest : PackageManifest) : Except RoseliteErr Unit :=
  if manifest.name = "" then
    .error (.invalidManifest "name cannot be empty")
  else if manifest.version = "" then
    .error (.invalidManifest "version cannot be empty")
  else if manifest.entry = "" then
    .error (.invalidManifest "entry point cannot be empty")
  else if manifest.identity = "" then
    .error (.invalidManifest "identity cannot be empty")
  else
    .ok ()

/-- One entry of the decoded tar archive inside a package: its path
components, and the outcome of `serde_json::from_slice::<PackageManifest>`
on its bytes.  The gzip/tar decoding and the serde parse are library
boundaries, so an entry carries the decoded path and the parse outcome
of its content directly. -/
structure TarEntry where
  path : List String
  parse : Except String PackageManifest
  deriving Repr

/-- Embedding of `Package::from_bytes` (package.rs lines 116-154): scan
the archive entries in order for the first whose file name (last path
component) is `veilid.json`; absent → `MissingManifest`; parse failure →
serde error; otherwise validate the manifest and assemble the `Package`
with `content` the raw input bytes and `size_bytes` their length. -/
def from_bytes (raw : List Nat) (entries : List TarEntry) : Except RoseliteErr Package :=
  match entries.find? (fun e => e.path.getLast? = some MANIFEST_FILENAME) with
  | none => .error .missingManifest
  | some e =>
    match e.parse with
    | .error msg => .error (.serializationError msg)
    | .ok manifest =>
      match validate_manifest manifest with
      | .error err => .error err
      | .ok () =>
        .ok { manifest := manifest, content := raw, size_bytes := raw.length, data := [] }

/-! ## Store data types (`types.rs` as used by store.rs)

`AppId` is a newtype over `String` and is embedded as a plain string;
`AppInfo` is embedded with the fields `VeilidStore::publish` constructs
(store.rs lines 266-283), timestamps as their rendered form. -/

/-- Embedding of `AppInfo` as constructed and consumed by store.rs. -/
structure AppInfo where
  id : String
  name : String
  slug : String
  version : String
  description : String
  developer : String
  category : String
  size_bytes : Nat
  download_count : Nat
  rating : Float
  created_at : String
  updated_at : String
  tags : List String
  entry_point : String
  veilid_identity : Option String
  signature : Option String
  deriving Repr

/-- Embedding of `VeilUri` (types.rs lines 22-37). -/
structure VeilUri where
  scheme : String
  app_id : String
  version : Option String
  deriving DecidableEq, Repr

/-- Embedding of `VeilUri::new`: the scheme is always `"veil"`. -/
def VeilUri.new (app_id : String) (version : Option String) : VeilUri :=
  { scheme := "veil", app_id := app_id, version := version }

/-! ## DHT client (`VeilidConnection`, veilid.rs)

Values stored in the DHT are the `serde_json::to_vec` serializations of
four payload types.  The byte round-trip through serde is a library
boundary: a stored value is carried at the type it was serialized from,
and `from_slice::<T>` on a value of a different payload type fails (its
JSON shape does not match `T`). -/

/-- Embedding of the `AttachmentState` enum (veilid.rs lines 38-48). -/
inductive AttachmentState where
  | detached
  | detaching
  | attaching
  | attachedWeak
  | attachedGood
  | attachedStrong
  | fullyAttached
  | overAttached
  deriving DecidableEq, Repr

/-- A typed DHT value: which payload was serialized into the stored bytes. -/
inductive DhtValue where
  | pkg (p : Package)
  | appInfo (a : AppInfo)
  | index (m : List (String × AppInfo))
  | strMap (m : List (String × String))
  deriving Repr

/-- Outcome of `serde_json::from_slice::<Package>` on a stored value. -/
def DhtValue.asPackage : DhtValue → Option Package
  | .pkg p => some p
  | _ => none

/-- Outcome of `serde_json::from_slice::<AppInfo>` on a stored value. -/
def DhtValue.asAppInfo : DhtValue → Option AppInfo
  | .appInfo a => some a
  | _ => none

/-- Outcome of `serde_json::from_slice::<HashMap<String, AppInfo>>`. -/
def DhtValue.asIndex : DhtValue → Option (List (String × AppInfo))
  | .index m => some m
  | _ => none

/-- Outcome of `serde_json::from_slice::<HashMap<String, String>>`. -/
def DhtValue.asStrMap : DhtValue → Option (List (String × String))
  | .strMap m => some m
  | _ => none

/-- Embedding of `ConnectionState` (veilid.rs lines 29-35). -/
structure ConnectionState where
  is_connected : Bool
  attachment_state : AttachmentState
  network_started : Bool
  use_fallback_storage : Bool
  node_id : Option String
  deriving DecidableEq, Repr

/-- `ConnectionState::default` (veilid.rs lines 136-146). -/
def ConnectionState.initial : ConnectionState :=
  { is_connected := false, attachment_state := .detached,
    network_started := false, use_fallback_storage := false, node_id := none }

/-- The embedded `VeilidConnection`: whether the API handle is present,
the connection state, the fallback in-memory storage, the Veilid
TableStore contents with failure injection for its `open` / `store` /
`load` / `delete` calls, and a ghost log of the successful `dht_set`
writes (key and value), used to state what publish writes. -/
structure VeilidConn where
  hasApi : Bool
  state : ConnectionState
  storage : List (String × DhtValue)
  table : List (String × DhtValue)
  tableOpenFails : Bool
  tableStoreFails : Bool
  tableLoadFails : Bool
  tableDeleteFails : Bool
  writes : List (String × DhtValue)
  deriving Repr

/-- A fresh connection as built by `VeilidConnection::new`. -/
def VeilidConn.fresh : VeilidConn :=
  { hasApi := false, state := ConnectionState.initial, storage := [], table := [],
    tableOpenFails := false, tableStoreFails := false, tableLoadFails := false,
    tableDeleteFails := false, writes := [] }

/-- Embedding of `VeilidConnection::dht_set` (veilid.rs lines 263-302):
fallback mode (`use_fallback_storage` set, or no API) inserts into the
in-memory map; otherwise the TableStore is opened and written, surfacing
`DhtOperationFailed` on either failure. -/
def dht_set (conn : VeilidConn) (key : String) (value : DhtValue) :
    Except RoseliteErr VeilidConn :=
  if conn.state.use_fallback_storage || !conn.hasApi then
    .ok { conn with storage := alInsert conn.storage key value,
                    writes := conn.writes ++ [(key, value)] }
  else if conn.tableOpenFails then
    .error (.dhtOperationFailed "Failed to open table")
  else if conn.tableStoreFails then
    .error (.dhtOperationFailed "Failed to store value")
  else
    .ok { conn with table := alInsert conn.table key value,
                    writes := conn.writes ++ [(key, value)] }

/-- Embedding of `VeilidConnection::dht_get` (veilid.rs lines 305-353):
fallback mode reads the in-memory map; otherwise a TableStore open
failure is treated as "table does not exist yet" and yields `Ok(None)`,
and a load failure surfaces `DhtOperationFailed`. -/
def dht_get (conn : VeilidConn) (key : String) :
    Except RoseliteErr (Option DhtValue) :=
  if conn.state.use_fallback_storage || !conn.hasApi then
    .ok (alLookup conn.storage key)
  else if conn.tableOpenFails then
    .ok none
  else if conn.tableLoadFails then
    .error (.dhtOperationFailed "Failed to load value")
  else
    .ok (alLookup conn.table key)

/-- Embedding of `VeilidConnection::dht_delete` (veilid.rs lines 356-394). -/
def dht_delete (conn : VeilidConn) (key : String) :
    Except RoseliteErr VeilidConn :=
  if conn.state.use_fallback_storage || !conn.hasApi then
    .ok { conn with storage := alRemove conn.storage key }
  else if conn.tableOpenFails then
    .error (.dhtOperationFailed "Failed to open table")
  else if conn.tableDeleteFails then
    .error (.dhtOperationFailed "Failed to delete value")
  else
    .ok { conn with table := alRemove conn.table key }

/-- Outcomes of the external Veilid API during `connect`: whether
`api_startup_json` succeeds, whether each attach attempt (numbered from
1) succeeds, and the outcome of the `get_state` call inside
`get_node_id`. -/
structure ConnectEnv where
  startupOk : Bool
  attachOk : Nat → Bool
  getNodeId : Except String String

/-- Embedding of `attach_with_retry` (veilid.rs lines 589-616):
`MAX_RETRIES = 3` attempts with a `RETRY_DELAY = 2` second sleep after
each failed non-final attempt; after the third failure the function
surfaces `ConnectionFailed`.  The second component records the sleeps
performed, in seconds. -/
def attach_with_retry (env : ConnectEnv) : Except RoseliteErr Unit × List Nat :=
  if env.attachOk 1 then (.ok (), [])
  else if env.attachOk 2 then (.ok (), [2])
  else if env.attachOk 3 then (.ok (), [2, 2])
  else (.error .connectionFailed, [2, 2])

/-- Embedding of `init_veilid_api` (veilid.rs lines 619-658): API
startup failure surfaces `ConnectionFailed`; otherwise the attach-retry
loop runs. -/
def init_veilid_api (env : ConnectEnv) : Except RoseliteErr Unit × List Nat :=
  if !env.startupOk then
    (.error .connectionFailed, [])
  else
    attach_with_retry env

/-- Embedding of `VeilidConnection::connect` (veilid.rs lines 166-221):
the state is set to `Attaching`; on successful initialization the node
id is fetched (a `get_state` failure there propagates as an error) and
the state becomes connected; on ANY initialization failure — including
`ConnectionFailed` from `attach_with_retry` — the error is caught, the
connection is marked `use_fallback_storage`, and `connect` returns
success. -/
def connect (env : ConnectEnv) (conn : VeilidConn) :
    Except RoseliteErr VeilidConn :=
  let conn := { conn with state := { conn.state with attachment_state := .attaching } }
  match (init_veilid_api env).1 with
  | .ok _ =>
    match env.getNodeId with
    | .error e =>
      .error (.dhtOperationFailed ("Failed to get state for node ID: " ++ e))
    | .ok node_id =>
      .ok { conn with
            hasApi := true
            state := { conn.state with
                       is_connected := true
                       network_started := true
                       node_id := some node_id } }
  | .error _ =>
    .ok { conn with
          state := { conn.state with
                     use_fallback_storage := true
                     is_connected := true
                     attachment_state := .detached } }

/-! ## Store (`VeilidStore`, store.rs) -/

/-- `VeilidStore::app_key` (store.rs lines 50-53). -/
def app_key (slug version : String) : String :=
  "roselite:app:" ++ slug ++ ":" ++ version

/-- `VeilidStore::metadata_key` (store.rs lines 55-58). -/
def metadata_key (slug : String) : String :=
  "roselite:metadata:" ++ slug

/-- `VeilidStore::slug_mapping_key` (store.rs lines 60-63). -/
def slug_mapping_key : String := "roselite:slug_mapping"

/-- `VeilidStore::name_mapping_key` (store.rs lines 65-68). -/
def name_mapping_key : String := "roselite:name_mapping"

/-- `VeilidStore::index_key` (store.rs lines 70-73). -/
def index_key : String := "roselite:index"

/-- Embedding of `VeilidStore::get_app_index` (store.rs lines 123-135):
a missing index is the empty map; an index that does not deserialize is
a `SerializationError`. -/
def get_app_index (conn : VeilidConn) :
    Except RoseliteErr (List (String × AppInfo)) :=
  match dht_get conn index_key with
  | .error e => .error e
  | .ok none => .ok []
  | .ok (some v) =>
    match v.asIndex with
    | none => .error (.serializationError "Failed to deserialize app index")
    | some m => .ok m

/-- Embedding of `VeilidStore::resolve_to_slug` (store.rs lines 137-168):
the identifier is first looked up as a slug-mapping key, then as a name,
then as an `AppInfo.id` in the index.  The two mapping reads use
`unwrap_or_default`, so undecodable mapping bytes become empty maps; the
index read can fail with `SerializationError`. -/
def resolve_to_slug (conn : VeilidConn) (identifier : String) :
    Except RoseliteErr (Option String) :=
  match dht_get conn slug_mapping_key with
  | .error e => .error e
  | .ok v1 =>
    if (alLookup ((v1.bind DhtValue.asStrMap).getD []) identifier).isSome then
      .ok (some identifier)
    else
      match dht_get conn name_mapping_key with
      | .error e => .error e
      | .ok v2 =>
        match alLookup ((v2.bind DhtValue.asStrMap).getD []) identifier with
        | some slug => .ok (some slug)
        | none =>
          match get_app_index conn with
          | .error e => .error e
          | .ok app_index =>
            .ok ((app_index.find? (fun p => p.2.id = identifier)).map
                  (fun p => p.2.slug))

/-- Embedding of `VeilidStore::get_app` (store.rs lines 229-247). -/
def get_app (conn : VeilidConn) (app_id : String) :
    Except RoseliteErr (Option AppInfo) :=
  match resolve_to_slug conn app_id with
  | .error e => .error e
  | .ok none => .ok none
  | .ok (some slug) =>
    match dht_get conn (metadata_key slug) with
    | .error e => .error e
    | .ok none => .ok none
    | .ok (some v) =>
      match v.asAppInfo with
      | none => .error (.serializationError "Failed to deserialize app info")
      | some a => .ok (some a)

/-- Embedding of `VeilidStore::get_latest_version` (store.rs lines 249-255). -/
def get_latest_version (conn : VeilidConn) (app_id : String) :
    Except RoseliteErr (Option String) :=
  match get_app conn app_id with
  | .error e => .error e
  | .ok (some a) => .ok (some a.version)
  | .ok none => .ok none

/-- The second half of `VeilidStore::add_to_index` (store.rs lines
91-120), after the index has been read: insert the app into the index
and both mappings (`unwrap_or_default` reads) and write all three back,
in the order index, slug mapping, name mapping. -/
def add_to_index_go (conn : VeilidConn) (app_info : AppInfo)
    (app_index : List (String × AppInfo)) : Except RoseliteErr VeilidConn :=
  match dht_get conn slug_mapping_key with
  | .error e => .error e
  | .ok v1 =>
    match dht_get conn name_mapping_key with
    | .error e => .error e
    | .ok v2 =>
      match dht_set conn index_key
          (.index (alInsert app_index app_info.slug app_info)) with
      | .error e => .error e
      | .ok conn1 =>
        match dht_set conn1 slug_mapping_key
            (.strMap (alInsert ((v1.bind DhtValue.asStrMap).getD [])
              app_info.slug app_info.name)) with
        | .error e => .error e
        | .ok conn2 =>
          dht_set conn2 name_mapping_key
            (.strMap (alInsert ((v2.bind DhtValue.asStrMap).getD [])
              app_info.name app_info.slug))

/-- Embedding of `VeilidStore::add_to_index` (store.rs lines 80-121):
the current index is read first (deserialization failure is an error);
then the app is added to the index and mappings. -/
def add_to_index (conn : VeilidConn) (app_info : AppInfo) :
    Except RoseliteErr VeilidConn :=
  match dht_get conn index_key with
  | .error e => .error e
  | .ok none => add_to_index_go conn app_info []
  | .ok (some v) =>
    match v.asIndex with
    | none => .error (.serializationError "Failed to deserialize app index")
    | some app_index => add_to_index_go conn app_info app_index

/-- The `slug` local of `VeilidStore::publish` (store.rs lines 259-263):
generated from the name when the manifest's slug is empty. -/
def publishSlug (pkg : Package) : String :=
  if pkg.manifest.slug = "" then generate_slug pkg.manifest.name
  else pkg.manifest.slug

/-- The `app_info` local of `VeilidStore::publish` (store.rs lines
266-283); the two `Utc::now()` calls are passed in as `now`. -/
def publish_app_info (now : String) (pkg : Package) : AppInfo :=
  { id := publishSlug pkg, name := pkg.manifest.name, slug := publishSlug pkg,
    version := pkg.manifest.version, description := pkg.manifest.description,
    developer := pkg.manifest.developer, category := pkg.manifest.category,
    size_bytes := pkg.size_bytes, download_count := 0, rating := 0.0,
    created_at := now, updated_at := now, tags := pkg.manifest.tags,
    entry_point := pkg.manifest.entry,
    veilid_identity := some pkg.manifest.author,
    signature := some "placeholder_signature" }

/-- Embedding of `VeilidStore::publish` (store.rs lines 257-305): derive
the slug, build the `AppInfo`, store the serialized package under
`app_key(slug, version)`, the metadata under `metadata_key(slug)`,
update index and mappings, and return
`VeilUri::new(AppId(slug), Some(version))`. -/
def publish (now : String) (pkg : Package) (conn : VeilidConn) :
    Except RoseliteErr (VeilUri × VeilidConn) :=
  match dht_set conn (app_key (publishSlug pkg) pkg.manifest.version) (.pkg pkg) with
  | .error e => .error e
  | .ok conn1 =>
    match dht_set conn1 (metadata_key (publishSlug pkg))
        (.appInfo (publish_app_info now pkg)) with
    | .error e => .error e
    | .ok conn2 =>
      match add_to_index conn2 (publish_app_info now pkg) with
      | .error e => .error e
      | .ok conn3 =>
        .ok (VeilUri.new (publishSlug pkg) (some (publish_app_info now pkg).version), conn3)

/-- Embedding of `VeilidStore::download` (store.rs lines 307-331):
resolve the URI's app id to a slug (absent → `AppNotFound`), pick the
package key from the URI's version or the latest version, fetch and
deserialize the package. -/
def download (conn : VeilidConn) (uri : VeilUri) : Except RoseliteErr Package :=
  match resolve_to_slug conn uri.app_id with
  | .error e => .error e
  | .ok none => .error (.appNotFound uri.app_id)
  | .ok (some slug) =>
    match
      (match uri.version with
       | some version => Except.ok (app_key slug version)
       | none =>
         match get_latest_version conn slug with
         | .error e => .error e
         | .ok (some latest) => .ok (app_key slug latest)
         | .ok none => .error (RoseliteErr.appNotFound uri.app_id)) with
    | .error e => .error e
    | .ok package_key =>
      match dht_get conn package_key with
      | .error e => .error e
      | .ok none => .error (.appNotFound uri.app_id)
      | .ok (some v) =>
        match v.asPackage with
        | none => .error (.serializationError "Failed to deserialize package")
        | some p => .ok p

/-! ## Gateway static file serving (`serve_static_file`, gateway main.rs lines 575-618)

Filesystem paths are embedded as lists of components.  Rust `Path`
component parsing drops empty components and `.` but keeps `..`;
`PathBuf::push` with a relative path appends components, and
`Path::starts_with` is component-wise prefix — none of these resolve
`..`.  The operating system resolves `..` only when the path is opened,
which `resolvePath` models.  A filesystem maps resolved absolute paths
to `none` (absent), `some none` (present but unreadable) or
`some (some bytes)`. -/

/-- Split a character list on a separator character. -/
def splitOnChar (sep : Char) : List Char → List (List Char)
  | [] => [[]]
  | c :: cs =>
    let r := splitOnChar sep cs
    if c = sep then
      [] :: r
    else
      match r with
      | [] => [[c]]
      | h :: t => (c :: h) :: t

/-- Rust `Path::components` of a relative path string: split on `/`,
dropping empty components and `.`; `..` components are kept. -/
def pathComponents (s : String) : List String :=
  ((splitOnChar '/' s.data).map (fun l => (⟨l⟩ : String))).filter
    (fun c => ¬ (c = "" ∨ c = "."))

/-- Resolution of `..` components performed by the operating system when
a path is actually opened (at the filesystem root, `..` stays put). -/
def resolvePath (components : List String) : List String :=
  components.foldl (fun acc c => if c = ".." then acc.dropLast else acc ++ [c]) []

/-- A filesystem: resolved absolute path → absent / unreadable / bytes. -/
def Fs : Type := List String → Option (Option (List Nat))

/-- The responses the embedded gateway handlers can produce. -/
inductive GatewayResponse where
  | ok (body : List Nat)
  | forbidden
  | notFoundFile
  | readFailed
  | extractFailed
  | welcome
  | siteNotFound (domain : String)
  | downloadFailed (domain : String)
  deriving DecidableEq, Repr

/-- HTTP status of each embedded response (`handle_domain_not_found` is
404, `handle_app_not_found` is 503 SERVICE_UNAVAILABLE). -/
def GatewayResponse.status : GatewayResponse → Nat
  | .ok _ => 200
  | .forbidden => 403
  | .notFoundFile => 404
  | .readFailed => 500
  | .extractFailed => 500
  | .welcome => 200
  | .siteNotFound _ => 404
  | .downloadFailed _ => 503

/-- The `clean_path` computation of `serve_static_file`: empty or `/`
requests map to `index.html`, otherwise leading slashes are trimmed
(Rust `trim_start_matches('/')`). -/
def cleanPath (requested_path : String) : String :=
  if requested_path = "" ∨ requested_path = "/" then
    "index.html"
  else
    ⟨requested_path.data.dropWhile (fun c => c = '/')⟩

/-- The security check, existence check and read of `serve_static_file`,
applied to the already-pushed `file_path`.  The `starts_with` check runs
on the un-canonicalized component list exactly as in the source (no
canonicalization happens anywhere); the filesystem is consulted at the
OS-resolved path. -/
def serveFile (fs : Fs) (base_path file_path : List String) : GatewayResponse :=
  if ¬ (base_path.isPrefixOf file_path) then
    .forbidden
  else
    match fs (resolvePath file_path) with
    | none => .notFoundFile
    | some none => .readFailed
    | some (some contents) => .ok contents

/-- Embedding of `serve_static_file` (gateway main.rs lines 575-618). -/
def serve_static_file (fs : Fs) (base_path : List String) (requested_path : String) :
    GatewayResponse :=
  serveFile fs base_path (base_path ++ pathComponents (cleanPath requested_path))

/-! ## Gateway request handler (`handle_request_internal`, gateway main.rs lines 221-311) -/

/-- Embedding of the gateway cache entry `CachedApp`. -/
structure CachedApp where
  package : Package
  extract_path : List String

/-- The environment a single gateway request runs against: the
configuration, the DNS TXT resolver, the in-process cache, the on-disk
cache-directory probe, the store's download outcome per DHT key, the
extraction outcome, and the filesystem seen by static serving. -/
structure GatewayEnv where
  cfg_domain : String
  cache_dir : List String
  dns : String → Option String
  cache : List (String × CachedApp)
  disk_dir_exists : List String → Bool
  download : String → Except RoseliteErr Package
  extract_ok : Bool
  fs : Fs

/-- Embedding of `handle_request_internal` (gateway main.rs lines
221-311): extract the domain, resolve it via DNS TXT (absent →
`handle_domain_not_found`, a 404), then in-process cache, then on-disk
cache directory, then `store.download` — whose failure branch calls
`handle_domain_not_found` (404) rather than `handle_app_not_found`
(503). -/
def handle_request_internal (env : GatewayEnv) (hostname path : String) :
    GatewayResponse :=
  match extract_domain_from_hostname hostname env.cfg_domain with
  | none => .welcome
  | some domain =>
    match env.dns domain with
    | none => .siteNotFound domain
    | some dht_key =>
      match alLookup env.cache domain with
      | some cached_app => serve_static_file env.fs cached_app.extract_path path
      | none =>
        if env.disk_dir_exists (env.cache_dir ++ [domain]) then
          serve_static_file env.fs (env.cache_dir ++ [domain]) path
        else
          match env.download dht_key with
          | .ok _ =>
            if env.extract_ok then
              serve_static_file env.fs (env.cache_dir ++ [domain]) path
            else
              .extractFailed
          | .error _ => .siteNotFound domain

/-! ## serde_json serialization of `Package` (byte-level)

`VeilidStore::publish` stores `serde_json::to_vec(&package)` as the
value of the package write.  For claims about the byte length of that
value, the serde_json compact rendering of `Package` is embedded here:
objects with fields in declaration order, strings with serde_json's
escaping, byte vectors as arrays of numbers, unit enum variants as
their name.  Characters stand for bytes (the rendering is ASCII when
the manifest strings are). -/

/-- The `{` byte. -/
def obrace : Char := Char.ofNat 123

/-- The `}` byte. -/
def cbrace : Char := Char.ofNat 125

/-- Lowercase hexadecimal digit. -/
def hexDigitChar (n : Nat) : Char :=
  if n < 10 then Char.ofNat (48 + n) else Char.ofNat (87 + n)

/-- serde_json string escaping of one character: quote and backslash
get a backslash, the control characters BS, TAB, LF, FF, CR get their
short forms, other control characters use `\u00XX`. -/
def jsonEscapeChar (c : Char) : List Char :=
  if c = '"' then ['\\', '"']
  else if c = '\\' then ['\\', '\\']
  else if c = Char.ofNat 8 then ['\\', 'b']
  else if c = Char.ofNat 9 then ['\\', 't']
  else if c = Char.ofNat 10 then ['\\', 'n']
  else if c = Char.ofNat 12 then ['\\', 'f']
  else if c = Char.ofNat 13 then ['\\', 'r']
  else if c.toNat < 32 then
    ['\\', 'u', '0', '0', hexDigitChar (c.toNat / 16), hexDigitChar (c.toNat % 16)]
  else [c]

/-- A JSON string literal. -/
def renderString (s : String) : List Char :=
  '"' :: (s.data.map jsonEscapeChar).flatten ++ ['"']

/-- A JSON number (unsigned). -/
def renderNat (n : Nat) : List Char := Nat.toDigits 10 n

/-- Comma-join JSON fragments. -/
def joinComma : List (List Char) → List Char
  | [] => []
  | [x] => x
  | x :: y :: rest => x ++ ',' :: joinComma (y :: rest)

/-- A JSON array. -/
def renderArr {α : Type} (render : α → List Char) (xs : List α) : List Char :=
  '[' :: joinComma (xs.map render) ++ [']']

/-- A JSON object with fields in the given order. -/
def renderObj (fields : List (String × List Char)) : List Char :=
  obrace :: joinComma (fields.map (fun f => renderString f.1 ++ ':' :: f.2)) ++ [cbrace]

/-- serde rendering of a unit `Permission` variant. -/
def renderPermission : Permission → List Char
  | .network => renderString "Network"
  | .fileSystem => renderString "FileSystem"
  | .camera => renderString "Camera"
  | .microphone => renderString "Microphone"
  | .clipboard => renderString "Clipboard"

/-- serde_json rendering of a `PackageManifest`, fields in declaration
order (package.rs lines 16-42). -/
def renderManifest (m : PackageManifest) : List Char :=
  renderObj
    [("name", renderString m.name), ("version", renderString m.version),
     ("description", renderString m.description),
     ("developer", renderString m.developer), ("author", renderString m.author),
     ("category", renderString m.category), ("entry", renderString m.entry),
     ("tags", renderArr renderString m.tags), ("slug", renderString m.slug),
     ("identity", renderString m.identity),
     ("signature", renderString m.signature),
     ("format_version", renderString m.format_version),
     ("dependencies", renderArr renderString m.dependencies),
     ("permissions", renderArr renderPermission m.permissions),
     ("created_at", renderString m.created_at),
     ("updated_at", renderString m.updated_at),
     ("public_key", renderString m.public_key)]

/-- Embedding of `serde_json::to_vec(&package)` (store.rs line 286):
the exact byte string `publish` hands to `dht_set` for the package
write; fields in declaration order (package.rs lines 83-88). -/
def serde_to_vec_package (p : Package) : List Char :=
  renderObj
    [("manifest", renderManifest p.manifest),
     ("content", renderArr renderNat p.content),
     ("size_bytes", renderNat p.size_bytes),
     ("data", renderArr renderNat p.data)]

/-! ## Concrete inputs used by counterexamples and witnesses -/

/-- A manifest whose `description`, `developer`, `author` and `category`
are all empty while the four fields `validate_manifest` actually checks
are non-empty. -/
def manifestNoDescription : PackageManifest :=
  { name := "app", version := "1.0.0", description := "", developer := "",
    author := "", category := "", entry := "index.html", tags := [],
    slug := "", identity := "id-1", signature := "", format_version := "1.0.0",
    dependencies := [], permissions := [], created_at := "2024-01-01T00:00:00Z",
    updated_at := "2024-01-01T00:00:00Z", public_key := "" }

/-- A fully populated manifest (every spec-required field non-empty). -/
def manifestFull : PackageManifest :=
  { name := "My App", version := "1.0.0", description := "a demo",
    developer := "dev", author := "dev", category := "general",
    entry := "index.html", tags := ["demo"], slug := "my-app",
    identity := "id-2", signature := "sig", format_version := "1.0.0",
    dependencies := [], permissions := [], created_at := "2024-01-01T00:00:00Z",
    updated_at := "2024-01-01T00:00:00Z", public_key := "pk" }

/-- A filesystem holding a single readable file at `/srv/cache/secret.txt`
— outside the extraction directory `/srv/cache/app`. -/
def fsOutside : Fs := fun p =>
  if p = ["srv", "cache", "secret.txt"] then some (some [42]) else none

/-- The extraction directory of the traversal scenario. -/
def baseApp : List String := ["srv", "cache", "app"]

/-- Connect environment in which the API starts but every attach attempt
fails. -/
def envAttachFails : ConnectEnv :=
  { startupOk := true, attachOk := fun _ => false, getNodeId := .ok "node" }

/-- Connect environment in which `api_startup_json` itself fails. -/
def envStartupFails : ConnectEnv :=
  { startupOk := false, attachOk := fun _ => true, getNodeId := .ok "node" }

/-- The connection state `connect` produces when initialization fails:
fallback storage enabled, connected, attachment left `Detached`. -/
def connFallback : VeilidConn :=
  { VeilidConn.fresh with
    state := { is_connected := true, attachment_state := .detached,
               network_started := false, use_fallback_storage := true,
               node_id := none } }

/-- A package whose recorded `size_bytes` disagrees with the length of
its `content`. -/
def pkgMismatch : Package :=
  { manifest := manifestFull, content := [1, 2, 3], size_bytes := 999, data := [] }

/-- A fallback-mode connection whose storage already holds `pkgMismatch`
under the slug `"my-app"` at version `"1.0.0"`, with the slug mapping in
place. -/
def connMismatch : VeilidConn :=
  { VeilidConn.fresh with
    state := { ConnectionState.initial with use_fallback_storage := true },
    storage := [(slug_mapping_key, .strMap [("my-app", "My App")]),
                (app_key "my-app" "1.0.0", .pkg pkgMismatch)] }

/-- A package with 9,000 content bytes. -/
def pkgBig : Package :=
  { manifest := manifestFull, content := List.replicate 9000 0,
    size_bytes := 9000, data := [] }

/-- A package published in the round-trip witness. -/
def pkgRoundtrip : Package :=
  { manifest := manifestFull, content := [10, 20, 30], size_bytes := 3, data := [] }

/-- An empty fallback-mode store state. -/
def connStart : VeilidConn :=
  { VeilidConn.fresh with
    state := { ConnectionState.initial with use_fallback_storage := true } }

/-- The store state produced by publishing `pkgRoundtrip` over
`connStart`. -/
def connRoundtripAfter : VeilidConn :=
  match publish "2024-01-01T00:00:00Z" pkgRoundtrip connStart with
  | .ok (_, c) => c
  | .error _ => VeilidConn.fresh

/-- Gateway environment in which DNS resolves the target domain but the
store download fails. -/
def envDownloadFails : GatewayEnv :=
  { cfg_domain := "localhost:8080",
    cache_dir := [".cache"],
    dns := fun d => if d = "my-app.localhost" then some "dht-key-1" else none,
    cache := [],
    disk_dir_exists := fun _ => false,
    download := fun _ => .error (.appNotFound "dht-key-1"),
    extract_ok := true,
    fs := fun _ => none }

end Roselite

namespace Roselite

/-! ## Theorems: association-list maps -/

theorem alLookup_insert_self {β : Type} (m : List (String × β)) (k : String) (v : β) :
    alLookup (alInsert m k v) k = some v := by
  simp [alInsert, alLookup]

theorem alLookup_insert_ne {β : Type} (m : List (String × β)) (k k' : String) (v : β)
    (h : k' ≠ k) : alLookup (alInsert m k' v) k = alLookup m k := by
  simp [alInsert, alLookup, h]

theorem alLookup_remove_self {β : Type} (m : List (String × β)) (k : String) :
    alLookup (alRemove m k) k = none := by
  induction m with
  | nil => rfl
  | cons p rest ih =>
    by_cases h : p.1 = k
    · simp only [alRemove, List.filter_cons, decide_not] at ih ⊢
      simp [h, ih]
    · simp only [alRemove, List.filter_cons, decide_not] at ih ⊢
      simp [h, alLookup, ih]

/-! ## Theorems: slug generation -/

theorem head?_dropWhile_dash (l : List Char) (x : Char)
    (h : (l.dropWhile (fun c => c = '-')).head? = some x) : x ≠ '-' := by
  induction l with
  | nil => simp [List.dropWhile] at h
  | cons a rest ih =>
    rw [List.dropWhile_cons] at h
    by_cases ha : a = '-'
    · rw [if_pos (by simp [ha])] at h
      exact ih h
    · rw [if_neg (by simp [ha])] at h
      simp only [List.head?, Option.some.injEq] at h
      intro hx
      exact ha (h.trans hx)

theorem head?_dropTrailingDashes (l : List Char) (x : Char)
    (h : (dropTrailingDashes l).head? = some x) : l.head? = some x := by
  cases l with
  | nil => simp [dropTrailingDashes] at h
  | cons c cs =>
    simp only [dropTrailingDashes] at h
    cases hr : dropTrailingDashes cs with
    | nil =>
      rw [hr] at h
      by_cases hc : c = '-'
      · simp [hc] at h
      · simp [hc, List.head?] at h
        simp [List.head?, h]
    | cons y ys =>
      rw [hr] at h
      simp [List.head?] at h ⊢
      exact h

theorem getLast?_dropTrailingDashes (l : List Char) (x : Char)
    (h : (dropTrailingDashes l).getLast? = some x) : x ≠ '-' := by
  induction l with
  | nil => simp [dropTrailingDashes] at h
  | cons c cs ih =>
    simp only [dropTrailingDashes] at h
    cases hr : dropTrailingDashes cs with
    | nil =>
      rw [hr] at h
      by_cases hc : c = '-'
      · simp [hc] at h
      · rw [if_neg hc] at h
        have hcx : c = x := by
          have hsing : ([c] : List Char).getLast? = some c := rfl
          rw [hsing] at h
          exact Option.some.inj h
        intro hx
        exact hc (hcx.trans hx)
    | cons y ys =>
      rw [hr] at h
      rw [List.getLast?_cons_cons] at h
      exact ih (by rw [hr]; exact h)

theorem mem_dropTrailingDashes {c : Char} {l : List Char}
    (h : c ∈ dropTrailingDashes l) : c ∈ l := by
  induction l with
  | nil => simp [dropTrailingDashes] at h
  | cons a cs ih =>
    simp only [dropTrailingDashes] at h
    cases hr : dropTrailingDashes cs with
    | nil =>
      rw [hr] at h
      by_cases ha : a = '-'
      · simp [ha] at h
      · rw [if_neg ha] at h
        simp only [List.mem_singleton] at h
        simp [h]
    | cons y ys =>
      rw [hr] at h
      rcases List.mem_cons.mp h with h1 | h2
      · simp [h1]
      · exact List.mem_cons_of_mem a (ih (by rw [hr]; exact h2))

theorem slugFoldChar_eq_some {a c : Char} (h : slugFoldChar a = some c) :
    c = '-' ∨ (c = a ∧ c.isAlphanum = true) := by
  unfold slugFoldChar at h
  by_cases h1 : a.isAlphanum
  · rw [if_pos h1] at h
    have hac := (Option.some.inj h).symm
    exact Or.inr ⟨hac, by rw [hac]; exact h1⟩
  · rw [if_neg h1] at h
    by_cases h2 : (rustIsWhitespace a || a = '-' || a = '_') = true
    · rw [if_pos h2] at h
      exact Or.inl (Option.some.inj h).symm
    · rw [if_neg h2] at h
      exact absurd h (by simp)

/-- C9: slug generation lowercases the name, keeps only alphanumeric
characters of the lowercased name (folding whitespace, `-` and `_` to
`-` and dropping everything else), and strips leading and trailing `-`;
on `"Foo Bar_Baz!"` it yields `"foo-bar-baz"`. -/
theorem C9_generate_slug :
    generate_slug "Foo Bar_Baz!" = "foo-bar-baz" ∧
    (∀ name : String,
      (generate_slug name).data.head? ≠ some '-' ∧
      (generate_slug name).data.getLast? ≠ some '-') ∧
    (∀ name : String, ∀ c ∈ (generate_slug name).data,
      c = '-' ∨ (c ∈ name.data.map Char.toLower ∧ c.isAlphanum = true)) := by
  refine ⟨by decide, fun name => ⟨?_, ?_⟩, fun name c hc => ?_⟩
  · intro h
    have h1 := head?_dropTrailingDashes _ _ h
    exact head?_dropWhile_dash _ _ h1 rfl
  · intro h
    exact getLast?_dropTrailingDashes _ _ h rfl
  · have hc' : c ∈ (name.data.map Char.toLower).filterMap slugFoldChar := by
      have h1 := mem_dropTrailingDashes hc
      exact (List.dropWhile_sublist _).mem h1
    rcases List.mem_filterMap.mp hc' with ⟨a, ha, hfa⟩
    rcases slugFoldChar_eq_some hfa with h | ⟨h1, h2⟩
    · exact Or.inl h
    · exact Or.inr ⟨h1 ▸ ha, h2⟩

/-- C9 witness: the universally quantified parts of `C9_generate_slug`
evaluated at the concrete name `"Foo Bar_Baz!"` and the character `'f'`. -/
theorem C9_generate_slug_witness :
    (generate_slug "Foo Bar_Baz!").data.head? ≠ some '-' ∧
    ('f' ∈ ("Foo Bar_Baz!" : String).data.map Char.toLower ∧ 'f'.isAlphanum = true) := by
  refine ⟨(C9_generate_slug.2.1 "Foo Bar_Baz!").1, ?_⟩
  have hmem : 'f' ∈ (generate_slug "Foo Bar_Baz!").data := by decide
  rcases C9_generate_slug.2.2 "Foo Bar_Baz!" 'f' hmem with h | h
  · exact absurd h (by decide)
  · exact h

/-! ## Theorems: gateway hostname dispatch (claim C7) -/

/-- C7 (code bug): on host `"my-app.localhost:8080"` with gateway host
`"localhost:8080"`, `extract_domain_from_hostname` returns the entire
port-stripped hostname `"my-app.localhost"`, not the part before the
gateway host `"my-app"` that the spec, the function's own doc comment
and its unit test `test_extract_domain_from_hostname` all state. -/
theorem C7_extract_domain_full_hostname :
    extract_domain_from_hostname "my-app.localhost:8080" "localhost:8080"
        = some "my-app.localhost" ∧
    extract_domain_from_hostname "my-app.localhost:8080" "localhost:8080"
        ≠ some "my-app" ∧
    extract_domain_from_hostname "invalid.com" "localhost:8080"
        = some "invalid.com" := by
  refine ⟨?_, ?_, ?_⟩ <;> decide

/-! ## Theorems: manifest validation (claim C8) -/

/-- C8 counterexample: an archive whose embedded manifest has empty
`description`, `developer`, `author` and `category` is accepted by
`from_bytes` (the claim says it must fail with `InvalidManifest`). -/
theorem C8_cex_empty_description_accepted :
    manifestNoDescription.description = "" ∧
    (from_bytes [1, 2, 3]
        [{ path := [MANIFEST_FILENAME], parse := .ok manifestNoDescription }]).isOk
      = true := by
  constructor
  · rfl
  · decide

/-- C8 (amended): `from_bytes` fails with `InvalidManifest` when `name`,
`version`, `entry` or `identity` is empty in the archive's manifest, and
succeeds (returning the parsed manifest) when those four fields are all
non-empty; `description`, `developer`, `author` and `category` are not
validated. -/
theorem C8_from_bytes_validation (raw : List Nat) (entries : List TarEntry)
    (e : TarEntry) (m : PackageManifest)
    (hfind : entries.find? (fun e => e.path.getLast? = some MANIFEST_FILENAME) = some e)
    (hparse : e.parse = .ok m) :
    ((m.name = "" ∨ m.version = "" ∨ m.entry = "" ∨ m.identity = "") →
      ∃ r, from_bytes raw entries = .error (.invalidManifest r)) ∧
    ((m.name ≠ "" ∧ m.version ≠ "" ∧ m.entry ≠ "" ∧ m.identity ≠ "") →
      from_bytes raw entries =
        .ok { manifest := m, content := raw, size_bytes := raw.length, data := [] }) := by
  simp only [from_bytes, hfind, hparse]
  constructor
  · intro h
    by_cases h1 : m.name = ""
    · exact ⟨"name cannot be empty", by simp [validate_manifest, h1]⟩
    · by_cases h2 : m.version = ""
      · exact ⟨"version cannot be empty", by simp [validate_manifest, h1, h2]⟩
      · by_cases h3 : m.entry = ""
        · exact ⟨"entry point cannot be empty", by simp [validate_manifest, h1, h2, h3]⟩
        · by_cases h4 : m.identity = ""
          · exact ⟨"identity cannot be empty", by simp [validate_manifest, h1, h2, h3, h4]⟩
          · rcases h with h | h | h | h <;> tauto
  · rintro ⟨h1, h2, h3, h4⟩
    simp [validate_manifest, h1, h2, h3, h4]

/-! ## Theorems: gateway static serving (claim C1) and request handler (claim C6) -/

theorem isPrefixOf_append_self (l r : List String) : l.isPrefixOf (l ++ r) = true := by
  induction l with
  | nil => simp [List.isPrefixOf]
  | cons a t ih => simp [List.isPrefixOf, ih]

theorem serveFile_ne_downloadFailed (fs : Fs) (b fp : List String) (d : String) :
    serveFile fs b fp ≠ .downloadFailed d := by
  unfold serveFile
  split
  · simp
  · split <;> simp

theorem serve_static_file_ne_downloadFailed (fs : Fs) (b : List String) (p d : String) :
    serve_static_file fs b p ≠ .downloadFailed d :=
  serveFile_ne_downloadFailed fs b (b ++ pathComponents (cleanPath p)) d

/-- C1 (code bug): the `starts_with` security check of `serve_static_file`
runs on the un-canonicalized path, where the pushed components always
extend the base path, so it can never fire; a request `"../secret.txt"`
resolves outside the extraction directory, is read, and is served with
200 instead of being rejected with 403. -/
theorem C1_path_traversal_not_prevented :
    serve_static_file fsOutside baseApp "../secret.txt" = .ok [42] ∧
    ¬ baseApp.isPrefixOf (resolvePath (baseApp ++ pathComponents "../secret.txt")) ∧
    ∀ (fs : Fs) (base : List String) (req : String),
      serve_static_file fs base req ≠ .forbidden := by
  refine ⟨by decide, by decide, fun fs base req => ?_⟩
  unfold serve_static_file serveFile
  rw [if_neg (by simp [isPrefixOf_append_self])]
  split <;> simp

/-- C1 witness: the universally quantified conjunct of
`C1_path_traversal_not_prevented` evaluated at the concrete traversal
scenario. -/
theorem C1_path_traversal_not_prevented_witness :
    serve_static_file fsOutside baseApp "../secret.txt" ≠ .forbidden :=
  C1_path_traversal_not_prevented.2.2 fsOutside baseApp "../secret.txt"

theorem handle_request_internal_ne_downloadFailed (env : GatewayEnv)
    (hostname path d : String) :
    handle_request_internal env hostname path ≠ .downloadFailed d := by
  unfold handle_request_internal
  split
  · simp
  · split
    · simp
    · split
      · exact serve_static_file_ne_downloadFailed _ _ _ _
      · split
        · exact serve_static_file_ne_downloadFailed _ _ _ _
        · split
          · split
            · exact serve_static_file_ne_downloadFailed _ _ _ _
            · simp
          · simp

/-- C6 (code bug): when DNS resolves the target domain but the store
download fails, `handle_request_internal` answers with the 404 "Site Not
Found" page of `handle_domain_not_found`, not the 503 "Download Failed"
page of `handle_app_not_found`; indeed no request can ever produce the
503 page — `handle_app_not_found` is dead code. -/
theorem C6_download_failure_maps_to_404 :
    handle_request_internal envDownloadFails "my-app.localhost:8080" "" =
      .siteNotFound "my-app.localhost" ∧
    (handle_request_internal envDownloadFails "my-app.localhost:8080" "").status = 404 ∧
    ∀ (env : GatewayEnv) (hostname path d : String),
      handle_request_internal env hostname path ≠ .downloadFailed d := by
  exact ⟨by decide, by decide, handle_request_internal_ne_downloadFailed⟩

/-- C6 witness: the universally quantified conjunct of
`C6_download_failure_maps_to_404` evaluated at the concrete failing
request. -/
theorem C6_download_failure_maps_to_404_witness :
    handle_request_internal envDownloadFails "my-app.localhost:8080" "" ≠
      .downloadFailed "my-app.localhost" :=
  C6_download_failure_maps_to_404.2.2 envDownloadFails "my-app.localhost:8080" ""
    "my-app.localhost"

/-- C8 witness: the amended theorem applied to a concrete archive whose
manifest has all four checked fields non-empty. -/
theorem C8_from_bytes_validation_witness :
    from_bytes [0] [{ path := [MANIFEST_FILENAME], parse := .ok manifestFull }] =
      .ok { manifest := manifestFull, content := [0], size_bytes := 1, data := [] } :=
  (C8_from_bytes_validation [0]
      [{ path := [MANIFEST_FILENAME], parse := .ok manifestFull }]
      { path := [MANIFEST_FILENAME], parse := .ok manifestFull }
      manifestFull rfl rfl).2
    (by refine ⟨?_, ?_, ?_, ?_⟩ <;> decide)

/-! ## Theorems: DHT key disjointness

The store's key formats `roselite:app:…`, `roselite:metadata:…`,
`roselite:index`, `roselite:slug_mapping` and `roselite:name_mapping`
differ at character 9 (the character after the common `roselite:`
prefix), so no app key can collide with any of the other keys. -/

theorem getElem9_append {c : Char} (l r : List Char) (h : l[9]? = some c) :
    (l ++ r)[9]? = some c := by
  have hlt : 9 < l.length := by
    by_contra hl
    push_neg at hl
    rw [List.getElem?_eq_none hl] at h
    exact Option.noConfusion h
  rw [List.getElem?_append_left hlt]
  exact h

theorem app_key_get9 (slug version : String) :
    (app_key slug version).data[9]? = some 'a' := by
  unfold app_key
  rw [String.data_append, String.data_append, String.data_append]
  apply getElem9_append
  apply getElem9_append
  apply getElem9_append
  decide

theorem metadata_key_get9 (slug : String) :
    (metadata_key slug).data[9]? = some 'm' := by
  unfold metadata_key
  rw [String.data_append]
  apply getElem9_append
  decide

theorem string_ne_of_get9 {s t : String} {a b : Char}
    (hs : s.data[9]? = some a) (ht : t.data[9]? = some b) (hab : a ≠ b) :
    s ≠ t := by
  intro he
  rw [he, ht] at hs
  exact hab (Option.some.inj hs).symm

theorem app_key_ne_metadata (slug version slug' : String) :
    app_key slug version ≠ metadata_key slug' :=
  string_ne_of_get9 (app_key_get9 slug version) (metadata_key_get9 slug') (by decide)

theorem app_key_ne_index (slug version : String) :
    app_key slug version ≠ index_key :=
  string_ne_of_get9 (app_key_get9 slug version)
    (show index_key.data[9]? = some 'i' by decide) (by decide)

theorem app_key_ne_slug_mapping (slug version : String) :
    app_key slug version ≠ slug_mapping_key :=
  string_ne_of_get9 (app_key_get9 slug version)
    (show slug_mapping_key.data[9]? = some 's' by decide) (by decide)

theorem app_key_ne_name_mapping (slug version : String) :
    app_key slug version ≠ name_mapping_key :=
  string_ne_of_get9 (app_key_get9 slug version)
    (show name_mapping_key.data[9]? = some 'n' by decide) (by decide)

theorem metadata_key_ne_index (slug : String) :
    metadata_key slug ≠ index_key :=
  string_ne_of_get9 (metadata_key_get9 slug)
    (show index_key.data[9]? = some 'i' by decide) (by decide)

theorem metadata_key_ne_slug_mapping (slug : String) :
    metadata_key slug ≠ slug_mapping_key :=
  string_ne_of_get9 (metadata_key_get9 slug)
    (show slug_mapping_key.data[9]? = some 's' by decide) (by decide)

theorem metadata_key_ne_name_mapping (slug : String) :
    metadata_key slug ≠ name_mapping_key :=
  string_ne_of_get9 (metadata_key_get9 slug)
    (show name_mapping_key.data[9]? = some 'n' by decide) (by decide)

/-! ## Theorems: DHT operations in fallback mode -/

theorem dht_set_fallback (conn : VeilidConn) (k : String) (v : DhtValue)
    (hfb : conn.state.use_fallback_storage = true) :
    dht_set conn k v =
      .ok { conn with storage := alInsert conn.storage k v,
                      writes := conn.writes ++ [(k, v)] } := by
  simp [dht_set, hfb]

theorem dht_get_fallback (conn : VeilidConn) (k : String)
    (hfb : conn.state.use_fallback_storage = true) :
    dht_get conn k = .ok (alLookup conn.storage k) := by
  simp [dht_get, hfb]

theorem dht_delete_fallback (conn : VeilidConn) (k : String)
    (hfb : conn.state.use_fallback_storage = true) :
    dht_delete conn k = .ok { conn with storage := alRemove conn.storage k } := by
  simp [dht_delete, hfb]

/-! ## Theorems: publish and download in fallback mode -/

theorem add_to_index_go_fallback_eq (conn : VeilidConn) (info : AppInfo)
    (idx : List (String × AppInfo))
    (hfb : conn.state.use_fallback_storage = true) :
    add_to_index_go conn info idx = .ok
      { conn with
        storage := alInsert (alInsert (alInsert conn.storage
            index_key (.index (alInsert idx info.slug info)))
            slug_mapping_key (.strMap (alInsert
              (((alLookup conn.storage slug_mapping_key).bind
                  DhtValue.asStrMap).getD [])
              info.slug info.name)))
            name_mapping_key (.strMap (alInsert
              (((alLookup conn.storage name_mapping_key).bind
                  DhtValue.asStrMap).getD [])
              info.name info.slug))
        writes := ((conn.writes ++
            [(index_key, .index (alInsert idx info.slug info))]) ++
            [(slug_mapping_key, .strMap (alInsert
              (((alLookup conn.storage slug_mapping_key).bind
                  DhtValue.asStrMap).getD [])
              info.slug info.name))]) ++
            [(name_mapping_key, .strMap (alInsert
              (((alLookup conn.storage name_mapping_key).bind
                  DhtValue.asStrMap).getD [])
              info.name info.slug))] } := by
  simp [add_to_index_go, dht_get, dht_set, hfb]

theorem add_to_index_go_fallback (conn : VeilidConn) (info : AppInfo)
    (idx : List (String × AppInfo))
    (hfb : conn.state.use_fallback_storage = true) :
    ∃ conn3, add_to_index_go conn info idx = .ok conn3 ∧
      conn3.state = conn.state ∧
      (∃ m, alLookup conn3.storage slug_mapping_key = some (.strMap m) ∧
            alLookup m info.slug = some info.name) ∧
      (∀ k, k ≠ index_key → k ≠ slug_mapping_key → k ≠ name_mapping_key →
        alLookup conn3.storage k = alLookup conn.storage k) ∧
      (∃ a b c, conn3.writes = ((conn.writes ++ [(index_key, a)]) ++
        [(slug_mapping_key, b)]) ++ [(name_mapping_key, c)]) := by
  refine ⟨_, add_to_index_go_fallback_eq conn info idx hfb, rfl,
    ⟨alInsert (((alLookup conn.storage slug_mapping_key).bind
        DhtValue.asStrMap).getD []) info.slug info.name, ?_, ?_⟩, ?_, ⟨_, _, _, rfl⟩⟩
  · show alLookup (alInsert (alInsert (alInsert conn.storage index_key _)
      slug_mapping_key _) name_mapping_key _) slug_mapping_key = _
    rw [alLookup_insert_ne _ _ _ _ (by decide)]
    exact alLookup_insert_self _ _ _
  · exact alLookup_insert_self _ _ _
  · intro k hk1 hk2 hk3
    show alLookup (alInsert (alInsert (alInsert conn.storage index_key _)
      slug_mapping_key _) name_mapping_key _) k = _
    rw [alLookup_insert_ne _ _ _ _ (Ne.symm hk3),
        alLookup_insert_ne _ _ _ _ (Ne.symm hk2),
        alLookup_insert_ne _ _ _ _ (Ne.symm hk1)]

theorem add_to_index_fallback (conn : VeilidConn) (info : AppInfo)
    (hfb : conn.state.use_fallback_storage = true) :
    (∃ e, add_to_index conn info = .error e) ∨
    (∃ conn3, add_to_index conn info = .ok conn3 ∧
      conn3.state = conn.state ∧
      (∃ m, alLookup conn3.storage slug_mapping_key = some (.strMap m) ∧
            alLookup m info.slug = some info.name) ∧
      (∀ k, k ≠ index_key → k ≠ slug_mapping_key → k ≠ name_mapping_key →
        alLookup conn3.storage k = alLookup conn.storage k) ∧
      (∃ a b c, conn3.writes = ((conn.writes ++ [(index_key, a)]) ++
        [(slug_mapping_key, b)]) ++ [(name_mapping_key, c)])) := by
  unfold add_to_index
  rw [dht_get_fallback conn index_key hfb]
  rcases hidx : alLookup conn.storage index_key with _ | v
  · exact Or.inr (add_to_index_go_fallback conn info [] hfb)
  · rcases hv : v.asIndex with _ | idx
    · dsimp only
      rw [hv]
      exact Or.inl ⟨_, rfl⟩
    · dsimp only
      rw [hv]
      exact Or.inr (add_to_index_go_fallback conn info idx hfb)

theorem publish_fallback_cases (now : String) (pkg : Package) (conn : VeilidConn)
    (hfb : conn.state.use_fallback_storage = true) :
    (∃ e, publish now pkg conn = .error e) ∨
    (∃ conn', publish now pkg conn =
        .ok (VeilUri.new (publishSlug pkg) (some pkg.manifest.version), conn') ∧
      conn'.state = conn.state ∧
      (∃ m, alLookup conn'.storage slug_mapping_key = some (.strMap m) ∧
            alLookup m (publishSlug pkg) = some pkg.manifest.name) ∧
      alLookup conn'.storage (app_key (publishSlug pkg) pkg.manifest.version) =
        some (.pkg pkg) ∧
      (∃ a b c, conn'.writes = ((((conn.writes ++
        [(app_key (publishSlug pkg) pkg.manifest.version, DhtValue.pkg pkg)]) ++
        [(metadata_key (publishSlug pkg),
          DhtValue.appInfo (publish_app_info now pkg))]) ++
        [(index_key, a)]) ++ [(slug_mapping_key, b)]) ++
        [(name_mapping_key, c)])) := by
  unfold publish
  rw [dht_set_fallback conn (app_key (publishSlug pkg) pkg.manifest.version)
      (.pkg pkg) hfb]
  dsimp only
  rw [dht_set_fallback
      { conn with
        storage := alInsert conn.storage
          (app_key (publishSlug pkg) pkg.manifest.version) (.pkg pkg)
        writes := conn.writes ++
          [(app_key (publishSlug pkg) pkg.manifest.version, .pkg pkg)] }
      (metadata_key (publishSlug pkg)) (.appInfo (publish_app_info now pkg)) hfb]
  dsimp only
  rcases add_to_index_fallback
      { conn with
        storage := alInsert
          (alInsert conn.storage
            (app_key (publishSlug pkg) pkg.manifest.version) (.pkg pkg))
          (metadata_key (publishSlug pkg)) (.appInfo (publish_app_info now pkg))
        writes := (conn.writes ++
          [(app_key (publishSlug pkg) pkg.manifest.version, .pkg pkg)]) ++
          [(metadata_key (publishSlug pkg), .appInfo (publish_app_info now pkg))] }
      (publish_app_info now pkg) hfb with
    ⟨e, he⟩ | ⟨c3, hgo, hst, hsm, hpres, a, b, c, hw⟩
  · rw [he]
    exact Or.inl ⟨e, rfl⟩
  · rw [hgo]
    dsimp only
    refine Or.inr ⟨c3, rfl, hst, hsm, ?_, ⟨a, b, c, hw⟩⟩
    rw [hpres _ (app_key_ne_index _ _) (app_key_ne_slug_mapping _ _)
        (app_key_ne_name_mapping _ _)]
    dsimp only
    rw [alLookup_insert_ne _ _ _ _ (Ne.symm (app_key_ne_metadata _ _ _))]
    exact alLookup_insert_self _ _ _

theorem download_ok (c : VeilidConn) (slug version : String) (pkg : Package)
    (hfb : c.state.use_fallback_storage = true)
    (m : List (String × String))
    (hm1 : alLookup c.storage slug_mapping_key = some (.strMap m))
    (hm2 : (alLookup m slug).isSome = true)
    (hpk : alLookup c.storage (app_key slug version) = some (.pkg pkg)) :
    download c (VeilUri.new slug (some version)) = .ok pkg := by
  unfold download resolve_to_slug
  rw [dht_get_fallback c slug_mapping_key hfb]
  dsimp only [VeilUri.new]
  rw [hm1]
  dsimp only [Option.bind, DhtValue.asStrMap, Option.getD]
  rw [if_pos hm2]
  dsimp only
  rw [dht_get_fallback c (app_key slug version) hfb, hpk]
  dsimp only [DhtValue.asPackage]

/-- C3: for every fallback-mode store state, a successful publish of a
package followed by a download of the returned URI over the resulting
state succeeds and returns a package with the same content bytes. -/
theorem C3_publish_download_roundtrip (now : String) (pkg : Package)
    (conn : VeilidConn) (hfb : conn.state.use_fallback_storage = true)
    (uri : VeilUri) (conn' : VeilidConn)
    (hp : publish now pkg conn = .ok (uri, conn')) :
    ∃ q, download conn' uri = .ok q ∧ q.content = pkg.content := by
  rcases publish_fallback_cases now pkg conn hfb with
    ⟨e, he⟩ | ⟨c3, hok, hst, ⟨m, hm1, hm2⟩, hpk, _⟩
  · rw [he] at hp
    exact absurd hp (by simp)
  · rw [hok] at hp
    have hpair := Except.ok.inj hp
    have huri : uri = VeilUri.new (publishSlug pkg) (some pkg.manifest.version) :=
      (congrArg Prod.fst hpair).symm
    have hconn : conn' = c3 := (congrArg Prod.snd hpair).symm
    subst huri
    rw [hconn]
    refine ⟨pkg, ?_, rfl⟩
    exact download_ok c3 (publishSlug pkg) pkg.manifest.version pkg
      (by rw [hst]; exact hfb) m hm1 (by rw [hm2]; rfl) hpk

/-- C3 witness: publishing a concrete package over an empty fallback
store and downloading the returned URI gives back the same content. -/
theorem C3_publish_download_roundtrip_witness :
    ∃ q, download connRoundtripAfter (VeilUri.new "my-app" (some "1.0.0")) = .ok q ∧
      q.content = pkgRoundtrip.content :=
  C3_publish_download_roundtrip "2024-01-01T00:00:00Z" pkgRoundtrip connStart rfl
    (VeilUri.new "my-app" (some "1.0.0")) connRoundtripAfter rfl

/-! ## Theorems: publish writes are not chunked (claim C2) -/

theorem joinComma_replicate_len (n : Nat) :
    (joinComma (List.replicate (n + 1) ['0'])).length = 2 * n + 1 := by
  induction n with
  | zero => rfl
  | succ m ih =>
    rw [List.replicate_succ, List.replicate_succ]
    show (['0'] ++ ',' :: joinComma (['0'] :: List.replicate m ['0'])).length
      = 2 * (m + 1) + 1
    rw [← List.replicate_succ]
    simp only [List.length_append, List.length_cons, List.length_nil] at *
    omega

theorem renderArr_replicate_zero_len :
    (renderArr renderNat (List.replicate 9000 (0 : Nat))).length = 18001 := by
  unfold renderArr
  rw [List.map_replicate]
  have h0 : renderNat 0 = ['0'] := rfl
  rw [h0]
  rw [show (9000 : Nat) = 8999 + 1 from rfl]
  have h := joinComma_replicate_len 8999
  simp only [List.length_cons, List.length_append, List.length_nil] at *
  omega

/-- C2 counterexample: publishing a package with 9,000 content bytes
performs a single write of the whole serialized package — its very
first DHT write — and the serde_json byte length of that value exceeds
8,000 (the content array alone renders to 18,001 bytes).  No constant
`CHUNK_SIZE` and no chunking exist in the code. -/
theorem C2_cex_write_exceeds_chunk_size :
    (∃ conn', publish "2024-01-01T00:00:00Z" pkgBig connStart =
        .ok (VeilUri.new "my-app" (some "1.0.0"), conn') ∧
      conn'.writes.head? = some (app_key "my-app" "1.0.0", .pkg pkgBig)) ∧
    8000 < (serde_to_vec_package pkgBig).length := by
  constructor
  · exact ⟨_, rfl, rfl⟩
  · have hc := renderArr_replicate_zero_len
    unfold serde_to_vec_package renderObj
    simp only [List.map_cons, List.map_nil, joinComma, List.length_append,
      List.length_cons]
    rw [show pkgBig.content = List.replicate 9000 (0 : Nat) from rfl]
    omega

/-- C2 (amended): publish writes the entire serialized package as one
value under `app_key(slug, version)`, followed by one metadata write
and the three index/mapping writes, in that order; nothing is chunked
and no per-write size bound is enforced. -/
theorem C2_publish_writes_whole_package (now : String) (pkg : Package)
    (conn : VeilidConn) (hfb : conn.state.use_fallback_storage = true)
    (uri : VeilUri) (conn' : VeilidConn)
    (hp : publish now pkg conn = .ok (uri, conn')) :
    ∃ a b c, conn'.writes = conn.writes ++
      [(app_key (publishSlug pkg) pkg.manifest.version, .pkg pkg),
       (metadata_key (publishSlug pkg), .appInfo (publish_app_info now pkg)),
       (index_key, a), (slug_mapping_key, b), (name_mapping_key, c)] := by
  rcases publish_fallback_cases now pkg conn hfb with
    ⟨e, he⟩ | ⟨c3, hok, _, _, _, a, b, c, hw⟩
  · rw [he] at hp
    exact absurd hp (by simp)
  · rw [hok] at hp
    have hconn : conn' = c3 := (congrArg Prod.snd (Except.ok.inj hp)).symm
    refine ⟨a, b, c, ?_⟩
    rw [hconn, hw]
    simp

/-- C2 witness: the amended theorem applied to the concrete publish of
`pkgRoundtrip` over the empty fallback store. -/
theorem C2_publish_writes_whole_package_witness :
    ∃ a b c, connRoundtripAfter.writes = connStart.writes ++
      [(app_key "my-app" "1.0.0", .pkg pkgRoundtrip),
       (metadata_key "my-app",
         .appInfo (publish_app_info "2024-01-01T00:00:00Z" pkgRoundtrip)),
       (index_key, a), (slug_mapping_key, b), (name_mapping_key, c)] :=
  C2_publish_writes_whole_package "2024-01-01T00:00:00Z" pkgRoundtrip connStart rfl
    (VeilUri.new "my-app" (some "1.0.0")) connRoundtripAfter rfl

/-! ## Theorems: download never size-validates (claim C5) -/

theorem dht_get_error_not_validation (conn : VeilidConn) (k : String)
    (e : RoseliteErr) (h : dht_get conn k = .error e) :
    e.isValidationError = false := by
  unfold dht_get at h
  split at h
  · exact absurd h (by simp)
  · split at h
    · exact absurd h (by simp)
    · split at h
      · obtain rfl := (Except.error.inj h)
        rfl
      · exact absurd h (by simp)

theorem get_app_index_error_not_validation (conn : VeilidConn) (e : RoseliteErr)
    (h : get_app_index conn = .error e) : e.isValidationError = false := by
  unfold get_app_index at h
  split at h
  next e' heq =>
    obtain rfl := (Except.error.inj h)
    exact dht_get_error_not_validation _ _ _ heq
  next heq => exact absurd h (by simp)
  next v heq =>
    split at h
    · obtain rfl := (Except.error.inj h)
      rfl
    · exact absurd h (by simp)

theorem resolve_to_slug_error_not_validation (conn : VeilidConn) (i : String)
    (e : RoseliteErr) (h : resolve_to_slug conn i = .error e) :
    e.isValidationError = false := by
  unfold resolve_to_slug at h
  split at h
  next e' heq =>
    obtain rfl := (Except.error.inj h)
    exact dht_get_error_not_validation _ _ _ heq
  next v1 heq =>
    split at h
    · exact absurd h (by simp)
    · split at h
      next e' heq2 =>
        obtain rfl := (Except.error.inj h)
        exact dht_get_error_not_validation _ _ _ heq2
      next v2 heq2 =>
        split at h
        · exact absurd h (by simp)
        · split at h
          next e' heq3 =>
            obtain rfl := (Except.error.inj h)
            exact get_app_index_error_not_validation _ _ heq3
          next idx heq3 => exact absurd h (by simp)

theorem get_app_error_not_validation (conn : VeilidConn) (i : String)
    (e : RoseliteErr) (h : get_app conn i = .error e) :
    e.isValidationError = false := by
  unfold get_app at h
  split at h
  next e' heq =>
    obtain rfl := (Except.error.inj h)
    exact resolve_to_slug_error_not_validation _ _ _ heq
  next heq => exact absurd h (by simp)
  next slug heq =>
    split at h
    next e' heq2 =>
      obtain rfl := (Except.error.inj h)
      exact dht_get_error_not_validation _ _ _ heq2
    next heq2 => exact absurd h (by simp)
    next v heq2 =>
      split at h
      · obtain rfl := (Except.error.inj h)
        rfl
      · exact absurd h (by simp)

theorem get_latest_version_error_not_validation (conn : VeilidConn) (i : String)
    (e : RoseliteErr) (h : get_latest_version conn i = .error e) :
    e.isValidationError = false := by
  unfold get_latest_version at h
  split at h
  next e' heq =>
    obtain rfl := (Except.error.inj h)
    exact get_app_error_not_validation _ _ _ heq
  next a heq => exact absurd h (by simp)
  next heq => exact absurd h (by simp)

/-- C5 (amended): `download` performs no size validation at all — no
error it returns is a `ValidationError`; in particular a stored package
whose `size_bytes` disagrees with the length of its `content` is
returned as-is. -/
theorem C5_download_no_size_validation (conn : VeilidConn) (uri : VeilUri)
    (e : RoseliteErr) (h : download conn uri = .error e) :
    e.isValidationError = false := by
  unfold download at h
  split at h
  next e' heq =>
    obtain rfl := (Except.error.inj h)
    exact resolve_to_slug_error_not_validation _ _ _ heq
  next heq =>
    obtain rfl := (Except.error.inj h)
    rfl
  next slug heq =>
    split at h
    next e' heq2 =>
      split at heq2
      · exact absurd heq2 (by simp)
      · split at heq2
        next e'' heq3 =>
          obtain rfl := (Except.error.inj heq2)
          obtain rfl := (Except.error.inj h)
          exact get_latest_version_error_not_validation _ _ _ heq3
        next latest heq3 => exact absurd heq2 (by simp)
        next heq3 =>
          obtain rfl := (Except.error.inj heq2)
          obtain rfl := (Except.error.inj h)
          rfl
    next package_key heq2 =>
      split at h
      next e' heq3 =>
        obtain rfl := (Except.error.inj h)
        exact dht_get_error_not_validation _ _ _ heq3
      next heq3 =>
        obtain rfl := (Except.error.inj h)
        rfl
      next v heq3 =>
        split at h
        · obtain rfl := (Except.error.inj h)
          rfl
        · exact absurd h (by simp)

/-- C5 counterexample: a download that returns a package whose `content`
length disagrees with its recorded `size_bytes` succeeds — there is no
"Downloaded content size doesn't match expected size" failure in the
code. -/
theorem C5_cex_size_mismatch_download_succeeds :
    pkgMismatch.content.length ≠ pkgMismatch.size_bytes ∧
    download connMismatch (VeilUri.new "my-app" (some "1.0.0")) = .ok pkgMismatch := by
  exact ⟨by decide, rfl⟩

/-- C5 witness: the amended theorem applied to a concrete failing
download (empty store, unknown app id). -/
theorem C5_download_no_size_validation_witness :
    (RoseliteErr.appNotFound "nope").isValidationError = false :=
  C5_download_no_size_validation VeilidConn.fresh (VeilUri.new "nope" none)
    (RoseliteErr.appNotFound "nope") rfl

/-! ## Theorems: connect attach failure handling (claim C4) and fallback semantics (claim C10) -/

/-- C4 counterexample: with an environment in which every attach attempt
fails, `attach_with_retry` does surface `ConnectionFailed` after 3
attempts and two 2-second sleeps, but `connect` swallows that failure:
it returns success with fallback storage enabled instead of returning
`ConnectionFailed` to its caller. -/
theorem C4_cex_connect_swallows_attach_failure :
    attach_with_retry envAttachFails = (.error .connectionFailed, [2, 2]) ∧
    connect envAttachFails VeilidConn.fresh = .ok connFallback ∧
    connFallback.state.use_fallback_storage = true ∧
    connect envAttachFails VeilidConn.fresh ≠ .error .connectionFailed := by
  refine ⟨rfl, rfl, rfl, ?_⟩
  intro h
  have h0 : connect envAttachFails VeilidConn.fresh = .ok connFallback := rfl
  rw [h0] at h
  exact Except.noConfusion h

/-- C4 (amended): when all three attach attempts fail,
`attach_with_retry` returns `ConnectionFailed` after two 2-second
retry delays, and `connect` catches the initialization failure: it
returns success with `use_fallback_storage` set, so subsequent DHT
operations run against the in-memory fallback map. -/
theorem C4_attach_failure_falls_back (env : ConnectEnv) (conn : VeilidConn)
    (h1 : env.attachOk 1 = false) (h2 : env.attachOk 2 = false)
    (h3 : env.attachOk 3 = false) :
    attach_with_retry env = (.error .connectionFailed, [2, 2]) ∧
    (env.startupOk = true →
      ∃ conn', connect env conn = .ok conn' ∧
        conn'.state.use_fallback_storage = true) := by
  have ha : attach_with_retry env = (.error .connectionFailed, [2, 2]) := by
    simp [attach_with_retry, h1, h2, h3]
  refine ⟨ha, fun hs => ?_⟩
  have hinit : (init_veilid_api env).1 = .error .connectionFailed := by
    simp [init_veilid_api, hs, ha]
  unfold connect
  rw [hinit]
  exact ⟨_, rfl, rfl⟩

/-- C4 witness: the amended theorem at the concrete all-attaches-fail
environment. -/
theorem C4_attach_failure_falls_back_witness :
    attach_with_retry envAttachFails = (.error .connectionFailed, [2, 2]) ∧
    (envAttachFails.startupOk = true →
      ∃ conn', connect envAttachFails VeilidConn.fresh = .ok conn' ∧
        conn'.state.use_fallback_storage = true) :=
  C4_attach_failure_falls_back envAttachFails VeilidConn.fresh rfl rfl rfl

/-- C10: when overlay API initialization fails, `connect` still returns
success with fallback storage marked, and in fallback mode the DHT
operations act on the process-local map (the TableStore is untouched):
`dht_get k` after `dht_set k v` yields `Some v`, other keys are
unaffected, and `dht_get k` after `dht_delete k` yields `None`. -/
theorem C10_fallback_semantics (env : ConnectEnv) (conn : VeilidConn)
    (hinit : (init_veilid_api env).1.isOk = false) :
    (∃ conn', connect env conn = .ok conn' ∧
      conn'.state.use_fallback_storage = true) ∧
    (∀ c : VeilidConn, c.state.use_fallback_storage = true →
      (∀ k v, ∃ c', dht_set c k v = .ok c' ∧
        c'.table = c.table ∧
        dht_get c' k = .ok (some v) ∧
        (∀ k2, k2 ≠ k → dht_get c' k2 = dht_get c k2)) ∧
      (∀ k, ∃ c', dht_delete c k = .ok c' ∧
        c'.table = c.table ∧
        dht_get c' k = .ok none)) := by
  constructor
  · rcases hm : (init_veilid_api env).1 with e | x
    · unfold connect
      rw [hm]
      exact ⟨_, rfl, rfl⟩
    · rw [hm] at hinit
      simp [Except.isOk, Except.toBool] at hinit
  · intro c hfb
    constructor
    · intro k v
      refine ⟨_, dht_set_fallback c k v hfb, rfl, ?_, ?_⟩
      · simp [dht_get, hfb, alLookup_insert_self]
      · intro k2 hk2
        simp [dht_get, hfb, alLookup_insert_ne _ _ _ _ (Ne.symm hk2)]
    · intro k
      refine ⟨_, dht_delete_fallback c k hfb, rfl, ?_⟩
      simp [dht_get, hfb, alLookup_remove_self]

/-- C10 witness: the theorem at a concrete startup-failure environment
and a concrete fallback-mode set / get / delete sequence. -/
theorem C10_fallback_semantics_witness :
    (∃ conn', connect envStartupFails VeilidConn.fresh = .ok conn' ∧
      conn'.state.use_fallback_storage = true) ∧
    (∃ c', dht_set connFallback "k" (.strMap []) = .ok c' ∧
      c'.table = connFallback.table ∧
      dht_get c' "k" = .ok (some (.strMap [])) ∧
      (∀ k2, k2 ≠ "k" → dht_get c' k2 = dht_get connFallback k2)) := by
  have h := C10_fallback_semantics envStartupFails VeilidConn.fresh rfl
  exact ⟨h.1, (h.2 connFallback rfl).1 "k" (.strMap [])⟩

end Roselite
